import Mathlib

/-
Verification of the Teaching-Stan-Hierarchical-Modelling notebooks.

The repository consists of tutorial notebooks that build Stan model
specifications as Python strings, bind host data into a dictionary, call the
external inference engine, and summarise the returned posterior samples.
This file gives a shallow embedding of those notebook cells: the Stan text
fragments are embedded verbatim as `String` constants, the data-binding
dictionaries as association lists over an abstract data provider, and the
summarisation code (numpy mean / std along an axis) as executable functions
over rational matrices.
-/

set_option maxRecDepth 4000

namespace StanNotebooks

/-! ### Model-specification text fragments

The Stan program fragments, exactly as authored in the notebooks.
Literal braces are written with the escapes `\x7b` / `\x7d`. -/

/-- Data block of the pooled model (notebook 04, cell `pooled_data`). -/
def pooled_data : String :=
  "\ndata \x7b\n  int<lower=0> N;\n  vector[N] x;\n  vector[N] y;\n\x7d\n"

/-- Parameters block of the pooled model (notebook 04, cell `pooled_parameters`). -/
def pooled_parameters : String :=
  "\nparameters \x7b\n    vector[2] beta;\n    real<lower=0> sigma;\n\x7d\n"

/-- Model block of the pooled model (notebook 04, cell `pooled_model`). -/
def pooled_model : String :=
  "\nmodel \x7b\n  y ~ normal(beta[1] + beta[2] * x, sigma);\n\x7d\n"

/-- Data block of the unpooled model (notebook 05, cell `unpooled_data`). -/
def unpooled_data : String :=
  "\ndata \x7b\n  int<lower=0> N;\n  int<lower=1, upper=85> county[N];\n  vector[N] x;\n  vector[N] y;\n\x7d\n"

/-- Parameters block of the unpooled model (notebook 05, cell `unpooled_parameters`). -/
def unpooled_parameters : String :=
  "\nparameters \x7b\n  vector[85] a;\n  real beta;\n  real<lower=0, upper=100> sigma;\n\x7d\n"

/-- Transformed-parameters block of the unpooled model (notebook 05,
cell `unpooled_transformed_parameters`). -/
def unpooled_transformed_parameters : String :=
  "\ntransformed parameters \x7b\n  vector[N] y_hat;\n  \n  for (i in 1:N)\n    y_hat[i] <- beta * x[i] + a[county[i]];\n\x7d\n"

/-- Model block of the unpooled model (notebook 05, cell `unpooled_model`). -/
def unpooled_model : String :=
  "\nmodel \x7b\n  y ~ normal(y_hat, sigma);\n\x7d\n"

/-- Fragments concatenated into the `model_code` argument of the pooled
fit call: `pooled_data + pooled_parameters + pooled_model`. -/
def pooledFragments : List String :=
  [pooled_data, pooled_parameters, pooled_model]

/-- Fragments concatenated into the `model_code` argument of the unpooled
fit call: `unpooled_data + unpooled_parameters +
unpooled_transformed_parameters + unpooled_model`. -/
def unpooledFragments : List String :=
  [unpooled_data, unpooled_parameters, unpooled_transformed_parameters, unpooled_model]

/-- Model text passed to `pystan.stan` by the pooled notebook. -/
def pooled_model_code : String := String.join pooledFragments

/-- Model text passed to `pystan.stan` by the unpooled notebook. -/
def unpooled_model_code : String := String.join unpooledFragments

/-- C1, counterexample: in the unpooled notebook the model text handed to the
inference engine is built from four authored fragments, not three: it is not
the concatenation of just the data, parameters and model blocks, because the
transformed-parameters block sits between them. -/
theorem unpooled_code_not_three_fragments :
    unpooledFragments.length ≠ 3 ∧
    unpooled_model_code ≠ unpooled_data ++ unpooled_parameters ++ unpooled_model := by
  constructor
  · decide
  · intro h
    have hl : unpooled_model_code.length =
        (unpooled_data ++ unpooled_parameters ++ unpooled_model).length :=
      congrArg String.length h
    revert hl
    decide

/-- C1, amended: in each notebook the model text passed to the inference
engine is the concatenation, in order, of the immutable text fragments
authored once in that notebook: three in the pooled notebook (data,
parameters, model) and four in the unpooled notebook (data, parameters,
transformed parameters, model). -/
theorem model_code_is_fragment_concatenation :
    pooled_model_code = pooled_data ++ pooled_parameters ++ pooled_model ∧
    unpooled_model_code = unpooled_data ++ unpooled_parameters ++
      unpooled_transformed_parameters ++ unpooled_model := by
  constructor
  · simp [pooled_model_code, pooledFragments, String.join]
  · simp [unpooled_model_code, unpooledFragments, String.join]

/-! ### Data provider and data-binding dictionaries

The notebooks import a module `clean_data` that supplies pre-cleaned arrays;
it is treated here as an abstract read-only provider. Numeric values are
modelled as rationals, Python ints as integers. -/

/-- Abstract data provider: the arrays the notebooks read from `clean_data`.
The `county` field holds the 0-based county codes. -/
structure CleanData where
  log_radon : List ℚ
  floor_measure : List ℚ
  county : List ℕ
  mn_counties : List String

/-- Value bound into a data dictionary: a Python int, an integer array, or a
real-valued array. -/
inductive StanValue where
  | intVal : ℤ → StanValue
  | intArr : List ℤ → StanValue
  | realArr : List ℚ → StanValue
  deriving DecidableEq

/-- Embedding of `clean_data.county + 1` (numpy broadcast add): every 0-based
county code offset to the engine's 1-based convention. -/
def county_binding (cd : CleanData) : List ℤ :=
  cd.county.map (fun (c : ℕ) => (c : ℤ) + 1)

/-- Data-binding dictionary of the pooled notebook (`pooled_data_dict`). -/
def pooled_data_dict (cd : CleanData) : List (String × StanValue) :=
  [("N", .intVal cd.log_radon.length),
   ("x", .realArr cd.floor_measure),
   ("y", .realArr cd.log_radon)]

/-- Data-binding dictionary of the unpooled notebook (`unpooled_data_dict`). -/
def unpooled_data_dict (cd : CleanData) : List (String × StanValue) :=
  [("N", .intVal cd.log_radon.length),
   ("county", .intArr (county_binding cd)),
   ("x", .realArr cd.floor_measure),
   ("y", .realArr cd.log_radon)]

/-! ### Declared input names of a data block

A small extractor running over the actual Stan data-block text: each
declaration line ends in a semicolon, and the declared name is the last
whitespace-separated token of the line, truncated at an array bracket. -/

/-- Split a character list at every occurrence of the separator `c`. -/
def splitOnChar (c : Char) : List Char → List (List Char)
  | [] => [[]]
  | x :: xs =>
    match splitOnChar c xs with
    | [] => [[]]
    | y :: ys => if x = c then [] :: y :: ys else (x :: y) :: ys

/-- Name declared by one Stan declaration line: last nonempty token before
the semicolon, truncated at an array bracket. -/
def lastTokenName (line : List Char) : Option (List Char) :=
  match ((splitOnChar ' ' ((splitOnChar ';' line).headD [])).filter
      (fun t => !t.isEmpty)).getLast? with
  | some t => some (t.takeWhile (fun ch => ch != '['))
  | none => none

/-- Input names declared by a Stan data block, in declaration order. -/
def declaredNames (block : String) : List String :=
  ((splitOnChar '\n' block.data).filterMap fun line =>
    if line.contains ';' then lastTokenName line else none).map String.mk

/-- C5: the names of the entries of each notebook's data-binding dictionary
are exactly the input names declared by that notebook's data block (pooled:
N, x, y; unpooled: N, county, x, y), with no extra entries. -/
theorem dict_keys_match_declared_names (cd : CleanData) :
    (pooled_data_dict cd).map Prod.fst = declaredNames pooled_data ∧
    (unpooled_data_dict cd).map Prod.fst = declaredNames unpooled_data := by
  constructor <;> rfl

/-- C2: for every row, the county index placed in the unpooled data-binding
dictionary is the host's 0-based county code plus 1. -/
theorem county_binding_is_code_plus_one (cd : CleanData) (i : ℕ)
    (h : i < cd.county.length) :
    (unpooled_data_dict cd).lookup "county"
      = some (StanValue.intArr (county_binding cd)) ∧
    (county_binding cd).getD i 0 = (cd.county.getD i 0 : ℤ) + 1 := by
  refine ⟨rfl, ?_⟩
  have h2 : i < (county_binding cd).length := by simpa [county_binding] using h
  rw [List.getD_eq_getElem?_getD, List.getElem?_eq_getElem h2, Option.getD_some]
  rw [List.getD_eq_getElem?_getD, List.getElem?_eq_getElem h, Option.getD_some]
  simp only [county_binding, List.getElem_map]

/-- C2 witness: concrete evaluation of the county binding on a one-row
provider with 0-based code 41. -/
theorem county_binding_is_code_plus_one_witness :
    0 < (CleanData.mk [0] [0] [41] ["X"]).county.length ∧
    ((unpooled_data_dict (CleanData.mk [0] [0] [41] ["X"])).lookup "county"
      = some (StanValue.intArr (county_binding (CleanData.mk [0] [0] [41] ["X"]))) ∧
    (county_binding (CleanData.mk [0] [0] [41] ["X"])).getD 0 0
      = ((CleanData.mk [0] [0] [41] ["X"]).county.getD 0 0 : ℤ) + 1) :=
  ⟨by decide, county_binding_is_code_plus_one (CleanData.mk [0] [0] [41] ["X"]) 0 (by decide)⟩

/-- C3: if every 0-based county code lies in 0..84, then every bound county
value after the +1 offset lies in the 1..85 range declared by the unpooled
data block. -/
theorem county_binding_in_declared_range (cd : CleanData)
    (hc : ∀ c ∈ cd.county, c ≤ 84) :
    ∀ v ∈ county_binding cd, 1 ≤ v ∧ v ≤ 85 := by
  intro v hv
  simp only [county_binding, List.mem_map] at hv
  obtain ⟨c, hcm, rfl⟩ := hv
  have := hc c hcm
  omega

/-- C3 witness: concrete evaluation on a provider whose codes are 0 and 84. -/
theorem county_binding_in_declared_range_witness :
    (∀ c ∈ (CleanData.mk [0] [0] [0, 84] ["X"]).county, c ≤ 84) ∧
    ∀ v ∈ county_binding (CleanData.mk [0] [0] [0, 84] ["X"]), 1 ≤ v ∧ v ≤ 85 :=
  ⟨by decide, county_binding_in_declared_range (CleanData.mk [0] [0] [0, 84] ["X"]) (by decide)⟩

/-- Length of an array-valued dictionary entry, if it is one. -/
def arrLen : StanValue → Option ℕ
  | .intVal _ => none
  | .intArr l => some l.length
  | .realArr l => some l.length

/-- Consistency of a data dictionary with its declared sample count: the
entry `N` holds a scalar equal to the length of every array entry. -/
def dictNConsistent (d : List (String × StanValue)) : Prop :=
  ∃ n : ℕ, d.lookup "N" = some (.intVal (n : ℤ)) ∧
    ∀ p ∈ d, ∀ l, arrLen p.2 = some l → l = n

/-- C4: if the provider's arrays all have equal length, then in both
notebooks' data-binding dictionaries the scalar bound to `N` equals the
length of every bound array. -/
theorem dicts_N_consistent (cd : CleanData)
    (hx : cd.floor_measure.length = cd.log_radon.length)
    (hcnt : cd.county.length = cd.log_radon.length) :
    dictNConsistent (pooled_data_dict cd) ∧ dictNConsistent (unpooled_data_dict cd) := by
  constructor
  · refine ⟨cd.log_radon.length, rfl, ?_⟩
    intro p hp l hl
    simp only [pooled_data_dict, List.mem_cons, List.not_mem_nil, or_false] at hp
    rcases hp with h | h | h <;> subst h <;> simp [arrLen] at hl <;> omega
  · refine ⟨cd.log_radon.length, rfl, ?_⟩
    intro p hp l hl
    simp only [unpooled_data_dict, List.mem_cons, List.not_mem_nil, or_false] at hp
    rcases hp with h | h | h | h <;> subst h <;>
      simp [arrLen, county_binding] at hl <;> omega

/-- C4 witness: concrete evaluation on a two-row provider. -/
theorem dicts_N_consistent_witness :
    ((CleanData.mk [1, 2] [0, 1] [3, 4] ["A", "B"]).floor_measure.length
      = (CleanData.mk [1, 2] [0, 1] [3, 4] ["A", "B"]).log_radon.length ∧
     (CleanData.mk [1, 2] [0, 1] [3, 4] ["A", "B"]).county.length
      = (CleanData.mk [1, 2] [0, 1] [3, 4] ["A", "B"]).log_radon.length) ∧
    (dictNConsistent (pooled_data_dict (CleanData.mk [1, 2] [0, 1] [3, 4] ["A", "B"])) ∧
     dictNConsistent (unpooled_data_dict (CleanData.mk [1, 2] [0, 1] [3, 4] ["A", "B"]))) :=
  ⟨⟨by decide, by decide⟩,
   dicts_N_consistent (CleanData.mk [1, 2] [0, 1] [3, 4] ["A", "B"]) (by decide) (by decide)⟩

/-! ### Posterior-sample summarization

A posterior sample for a vector parameter is a matrix: one row per draw,
one entry per component. The numpy reductions used by the notebooks are
embedded as executable functions on `List (List ℚ)`: `mean1` is `mean(1)`
(row means), `sum0` / `mean0` / `var0` are the elementwise reductions along
axis 0, and `transposeK` is `.T` for a rectangular array of `k` columns. -/

/-- Sum of a list of rationals. -/
def listSum (l : List ℚ) : ℚ := l.foldr (fun a b => a + b) 0

/-- Arithmetic mean of a list of rationals. -/
def listMean (l : List ℚ) : ℚ := listSum l / l.length

/-- Population variance of a list of rationals: the mean of the squared
deviations from the mean. numpy's `std` is its square root. -/
def listVar (l : List ℚ) : ℚ := listMean (l.map (fun v => (v - listMean l) ^ 2))

/-- Column `j` of a sample matrix: the ordered sequence of draws of
component `j`. -/
def column (j : ℕ) (m : List (List ℚ)) : List ℚ := m.map (fun row => row.getD j 0)

/-- Elementwise addition of two draw rows. -/
def zipAdd (a b : List ℚ) : List ℚ := List.zipWith (fun p q => p + q) a b

/-- Elementwise sum along axis 0 of a matrix with `k` columns. -/
def sum0 (k : ℕ) (m : List (List ℚ)) : List ℚ := m.foldr zipAdd (List.replicate k 0)

/-- numpy `mean(0)`: elementwise sum along axis 0 divided by the number of
draws. -/
def mean0 (k : ℕ) (m : List (List ℚ)) : List ℚ := (sum0 k m).map (fun s => s / m.length)

/-- Elementwise squared deviation of a draw row from a vector of means. -/
def sqDev (row mu : List ℚ) : List ℚ := List.zipWith (fun v q => (v - q) ^ 2) row mu

/-- Square of numpy `std(0)`: elementwise mean along axis 0 of the squared
deviations from the elementwise mean. -/
def var0 (k : ℕ) (m : List (List ℚ)) : List ℚ :=
  mean0 k (m.map (fun row => sqDev row (mean0 k m)))

/-- numpy `.T` on a rectangular array of `k` columns: row `j` of the
transpose is column `j` of the array. -/
def transposeK (k : ℕ) (m : List (List ℚ)) : List (List ℚ) :=
  (List.range k).map (fun j => column j m)

/-- numpy `mean(1)`: the mean of each row. -/
def mean1 (m : List (List ℚ)) : List ℚ := m.map listMean

/-- Embedding of `pooled_sample['beta'].T.mean(1)` from the pooled notebook. -/
def pooled_beta_means (beta : List (List ℚ)) : List ℚ := mean1 (transposeK 2 beta)

/-- First component of the destructuring `b0, m0 = ...T.mean(1)`. -/
def b0 (beta : List (List ℚ)) : ℚ := (pooled_beta_means beta).getD 0 0

/-- Second component of the destructuring `b0, m0 = ...T.mean(1)`. -/
def m0 (beta : List (List ℚ)) : ℚ := (pooled_beta_means beta).getD 1 0

/-- Embedding of `unpooled_fit['a'].mean(0)`: the values of the
`unpooled_estimates` series. -/
def unpooled_estimates (a : List (List ℚ)) : List ℚ := mean0 85 a

/-- Square of `unpooled_fit['a'].std(0)`: the squared values of the
`unpooled_se` series. -/
def unpooled_var (a : List (List ℚ)) : List ℚ := var0 85 a

/-- The summarization step of the unpooled notebook: county means and the
squared standard errors, both read off the same sample array. -/
def summarize_unpooled (a : List (List ℚ)) : List ℚ × List ℚ :=
  (unpooled_estimates a, unpooled_var a)

/-- Helper: `getD` at an index inside the list is plain indexing. -/
theorem getD_of_lt {α : Type} (l : List α) (j : ℕ) (d : α) (h : j < l.length) :
    l.getD j d = l[j] := by
  rw [List.getD_eq_getElem?_getD, List.getElem?_eq_getElem h, Option.getD_some]

/-- Helper: the elementwise axis-0 sum of a rectangular matrix has one entry
per column. -/
theorem length_sum0 (k : ℕ) (m : List (List ℚ)) (hm : ∀ row ∈ m, row.length = k) :
    (sum0 k m).length = k := by
  induction m with
  | nil => simp [sum0]
  | cons row t ih =>
    have hrow : row.length = k := hm row (List.mem_cons_self row t)
    have ht : (sum0 k t).length = k := ih (fun r hr => hm r (List.mem_cons_of_mem row hr))
    simp [sum0, zipAdd, List.length_zipWith] at ht ⊢
    omega

/-- Helper: entry `j` of the elementwise axis-0 sum is the sum of column `j`. -/
theorem getD_sum0 (k : ℕ) (m : List (List ℚ)) (j : ℕ)
    (hm : ∀ row ∈ m, row.length = k) (hj : j < k) :
    (sum0 k m).getD j 0 = listSum (column j m) := by
  induction m with
  | nil =>
    simp [sum0, column, listSum, List.getD_eq_getElem?_getD, List.getElem?_replicate, hj]
  | cons row t ih =>
    have hrow : row.length = k := hm row (List.mem_cons_self row t)
    have ht : ∀ r ∈ t, r.length = k := fun r hr => hm r (List.mem_cons_of_mem row hr)
    have hlt : (sum0 k t).length = k := length_sum0 k t ht
    have hz : j < (zipAdd row (sum0 k t)).length := by
      simp [zipAdd, List.length_zipWith, hrow, hlt, hj]
    have hjr : j < row.length := by omega
    have hjt : j < (sum0 k t).length := by omega
    have hstep : (sum0 k (row :: t)).getD j 0 = row[j] + (sum0 k t)[j] := by
      show (zipAdd row (sum0 k t)).getD j 0 = _
      rw [getD_of_lt _ _ _ hz]
      simp [zipAdd, List.getElem_zipWith]
    rw [hstep]
    have hcol : listSum (column j (row :: t)) = row.getD j 0 + listSum (column j t) := rfl
    rw [hcol, getD_of_lt _ _ _ hjr, ← ih ht, getD_of_lt _ _ _ hjt]

/-- Helper: entry `j` of `mean(0)` is the arithmetic mean of column `j`. -/
theorem getD_mean0 (k : ℕ) (m : List (List ℚ)) (j : ℕ)
    (hm : ∀ row ∈ m, row.length = k) (hj : j < k) :
    (mean0 k m).getD j 0 = listMean (column j m) := by
  have hlt : (sum0 k m).length = k := length_sum0 k m hm
  have hmap : j < ((sum0 k m).map (fun s => s / (m.length : ℚ))).length := by
    simp [hlt, hj]
  have hjs : j < (sum0 k m).length := by omega
  show ((sum0 k m).map (fun s => s / (m.length : ℚ))).getD j 0 = _
  rw [getD_of_lt _ _ _ hmap, List.getElem_map, ← getD_of_lt _ _ _ hjs, getD_sum0 k m j hm hj]
  simp [listMean, column]

/-- Helper: `mean(0)` of a rectangular matrix has one entry per column. -/
theorem length_mean0 (k : ℕ) (m : List (List ℚ)) (hm : ∀ row ∈ m, row.length = k) :
    (mean0 k m).length = k := by
  simp [mean0, length_sum0 k m hm]

/-- Helper: column `j` of the elementwise squared-deviation matrix is the
squared deviation of column `j` from the column mean entry. -/
theorem column_sqDev (m : List (List ℚ)) (mu : List ℚ) (k j : ℕ)
    (hm : ∀ row ∈ m, row.length = k) (hmu : mu.length = k) (hj : j < k) :
    column j (m.map (fun row => sqDev row mu))
      = (column j m).map (fun v => (v - mu.getD j 0) ^ 2) := by
  show (m.map (fun row => sqDev row mu)).map (fun row => row.getD j 0)
      = (m.map (fun row => row.getD j 0)).map (fun v => (v - mu.getD j 0) ^ 2)
  rw [List.map_map, List.map_map]
  refine List.map_congr_left ?_
  intro row hr
  have hrow : row.length = k := hm row hr
  have hz : j < (sqDev row mu).length := by
    simp [sqDev, List.length_zipWith, hrow, hmu, hj]
  have hjr : j < row.length := by omega
  have hjm : j < mu.length := by omega
  show (sqDev row mu).getD j 0 = (row.getD j 0 - mu.getD j 0) ^ 2
  rw [getD_of_lt _ _ _ hz, getD_of_lt _ _ _ hjr, getD_of_lt _ _ _ hjm]
  simp [sqDev, List.getElem_zipWith]

/-- Helper: entry `j` of the squared `std(0)` is the population variance of
column `j`. -/
theorem getD_var0 (k : ℕ) (m : List (List ℚ)) (j : ℕ)
    (hm : ∀ row ∈ m, row.length = k) (hj : j < k) :
    (var0 k m).getD j 0 = listVar (column j m) := by
  have hmu : (mean0 k m).length = k := length_mean0 k m hm
  have hm2 : ∀ row ∈ m.map (fun row => sqDev row (mean0 k m)), row.length = k := by
    intro r hr
    simp only [List.mem_map] at hr
    obtain ⟨row, hrow, rfl⟩ := hr
    have := hm row hrow
    simp [sqDev, List.length_zipWith, this, hmu]
  show (mean0 k (m.map (fun row => sqDev row (mean0 k m)))).getD j 0 = _
  rw [getD_mean0 k _ j hm2 hj,
      column_sqDev m (mean0 k m) k j hm hmu hj,
      getD_mean0 k m j hm hj]
  have hlen : (m.map (fun row => sqDev row (mean0 k m))).length = m.length := by simp
  simp only [listVar, listMean, column, List.length_map, hlen]

/-- Helper: row `j` of the transpose is column `j`, so the pooled path
(transpose, then row means) reads off column means. -/
theorem getD_mean1_transposeK (k : ℕ) (m : List (List ℚ)) (j : ℕ) (hj : j < k) :
    (mean1 (transposeK k m)).getD j 0 = listMean (column j m) := by
  have h1 : j < ((List.range k).map (fun j => column j m)).length := by simp [hj]
  have h2 : j < (((List.range k).map (fun j => column j m)).map listMean).length := by
    simp [hj]
  show (((List.range k).map (fun j => column j m)).map listMean).getD j 0 = _
  rw [getD_of_lt _ _ _ h2]
  simp

/-- C6: summarization returns column statistics of the posterior sample:
`b0` and `m0` are the arithmetic means of the two columns of the pooled
`beta` draws, `unpooled_estimates[j]` is the arithmetic mean of county `j`'s
column of `a` draws, and the square of `unpooled_se[j]` (numpy `std(0)`,
embedded via its square `unpooled_var`) is the population variance of that
column. -/
theorem summarization_is_columnwise (beta a : List (List ℚ))
    (ha : ∀ row ∈ a, row.length = 85) (j : ℕ) (hj : j < 85) :
    b0 beta = listMean (column 0 beta) ∧
    m0 beta = listMean (column 1 beta) ∧
    (unpooled_estimates a).getD j 0 = listMean (column j a) ∧
    (unpooled_var a).getD j 0 = listVar (column j a) := by
  refine ⟨?_, ?_, ?_, ?_⟩
  · exact getD_mean1_transposeK 2 beta 0 (by omega)
  · exact getD_mean1_transposeK 2 beta 1 (by omega)
  · exact getD_mean0 85 a j ha hj
  · exact getD_var0 85 a j ha hj

/-- C6 witness: concrete evaluation on a two-draw pooled sample and a
one-draw unpooled sample. -/
theorem summarization_is_columnwise_witness :
    ((∀ row ∈ [List.replicate 85 (3 : ℚ)], row.length = 85) ∧ 0 < 85) ∧
    (b0 [[1, 2], [3, 4]] = listMean (column 0 [[1, 2], [3, 4]]) ∧
     m0 [[1, 2], [3, 4]] = listMean (column 1 [[1, 2], [3, 4]]) ∧
     (unpooled_estimates [List.replicate 85 (3 : ℚ)]).getD 0 0
       = listMean (column 0 [List.replicate 85 (3 : ℚ)]) ∧
     (unpooled_var [List.replicate 85 (3 : ℚ)]).getD 0 0
       = listVar (column 0 [List.replicate 85 (3 : ℚ)])) :=
  ⟨⟨by decide, by decide⟩,
   summarization_is_columnwise [[1, 2], [3, 4]] [List.replicate 85 (3 : ℚ)]
     (by decide) 0 (by decide)⟩

/-- C7: summarization is a deterministic pure function of the posterior
sample: on equal inputs the unpooled summary and the pooled means coincide. -/
theorem summarization_deterministic (s t : List (List ℚ)) (h : s = t) :
    summarize_unpooled s = summarize_unpooled t ∧
    pooled_beta_means s = pooled_beta_means t := by
  subst h
  exact ⟨rfl, rfl⟩

/-- C7 witness: concrete evaluation on a fixed fabricated sample array. -/
theorem summarization_deterministic_witness :
    ([[1, 2], [3, 4]] : List (List ℚ)) = [[1, 2], [3, 4]] ∧
    (summarize_unpooled [[1, 2], [3, 4]] = summarize_unpooled [[1, 2], [3, 4]] ∧
     pooled_beta_means [[1, 2], [3, 4]] = pooled_beta_means [[1, 2], [3, 4]]) :=
  ⟨rfl, summarization_deterministic [[1, 2], [3, 4]] [[1, 2], [3, 4]] rfl⟩

/-! ### The delegated inference call

The notebooks call `pystan.stan(...)` with no surrounding `try`/`except`:
the fit either returns an opaque fit object or raises, and any exception
flows straight out of the cell. The notebook pipeline is embedded as a
fallible engine call followed by the pure summarization step. -/

/-- The unpooled notebook pipeline: build the data dictionary, call the
engine, and, on success, summarise the fit. There is no handler branch,
mirroring the absence of `try`/`except` in the notebooks. -/
def run_unpooled_notebook {E Fit Summary : Type} (engine : List (String × StanValue) → Except E Fit)
    (summarise : Fit → Summary) (cd : CleanData) : Except E Summary :=
  match engine (unpooled_data_dict cd) with
  | .error e => .error e
  | .ok fit => .ok (summarise fit)

/-- C8: if the delegated inference call raises, the error reaches the caller
unchanged: the pipeline neither catches, wraps nor classifies it. -/
theorem engine_error_propagates {E Fit Summary : Type}
    (engine : List (String × StanValue) → Except E Fit)
    (summarise : Fit → Summary) (cd : CleanData) (e : E)
    (h : engine (unpooled_data_dict cd) = .error e) :
    run_unpooled_notebook engine summarise cd = .error e := by
  simp [run_unpooled_notebook, h]

/-- C8 witness: a concrete always-failing engine propagates its error
string through the pipeline verbatim. -/
theorem engine_error_propagates_witness :
    (fun (_ : List (String × StanValue)) => (Except.error "sampler failed" : Except String Unit))
        (unpooled_data_dict (CleanData.mk [] [] [] [])) = Except.error "sampler failed" ∧
    run_unpooled_notebook
        (fun (_ : List (String × StanValue)) => (Except.error "sampler failed" : Except String Unit))
        (fun (_ : Unit) => ()) (CleanData.mk [] [] [] []) = Except.error "sampler failed" :=
  ⟨rfl, engine_error_propagates
    (fun (_ : List (String × StanValue)) => (Except.error "sampler failed" : Except String Unit))
    (fun (_ : Unit) => ()) (CleanData.mk [] [] [] []) "sampler failed" rfl⟩

/-! ### Semantics of the transformed-parameters block

The block `unpooled_transformed_parameters` loops over `i in 1:N` and sets
`y_hat[i] <- beta * x[i] + a[county[i]]`. Stan indexing is 1-based; the
embedding uses 0-based positions, so the 1-based county value `county[i]`
selects entry `county[i] - 1` of `a`. -/

/-- Denotation of the `y_hat` computation of the unpooled model's
transformed-parameters block. -/
def y_hat (N : ℕ) (beta : ℚ) (x : List ℚ) (a : List ℚ) (county : List ℤ) : List ℚ :=
  (List.range N).map (fun i => beta * x.getD i 0 + a.getD ((county.getD i 1).toNat - 1) 0)

/-- C9: for every household `i`, the predicted value `y_hat[i]` equals
`beta * x[i] + a[county[i]]`: an affine function of the floor covariate
whose intercept is the entry of `a` selected by the household's 1-based
county index. By the block `unpooled_model` (`y ~ normal(y_hat, sigma)`),
this is the likelihood mean of household `i`. -/
theorem y_hat_is_affine_in_floor (N : ℕ) (beta : ℚ) (x a : List ℚ) (county : List ℤ)
    (i : ℕ) (hi : i < N) :
    (y_hat N beta x a county).getD i 0
      = beta * x.getD i 0 + a.getD ((county.getD i 1).toNat - 1) 0 := by
  have h1 : i < (List.range N).length := by simpa using hi
  have h2 : i < (y_hat N beta x a county).length := by simp [y_hat, hi]
  rw [getD_of_lt _ _ _ h2]
  simp [y_hat]

/-- C9 witness: concrete evaluation with two households and two counties. -/
theorem y_hat_is_affine_in_floor_witness :
    0 < 2 ∧
    (y_hat 2 10 [0, 1] [100, 200] [2, 1]).getD 0 0
      = 10 * ([(0 : ℚ), 1].getD 0 0)
        + [(100 : ℚ), 200].getD ((([(2 : ℤ), 1].getD 0 1).toNat - 1)) 0 :=
  ⟨by decide, y_hat_is_affine_in_floor 2 10 [0, 1] [100, 200] [2, 1] 0 (by decide)⟩

/-! ### Reordering the county estimates for plotting

`unpooled_estimates` is a pandas Series: county names as index, estimated
radon levels as values. It is modelled as an association list. The notebook
computes `order = unpooled_estimates.sort_values().index` and then plots
`unpooled_estimates[order]`: a sort by value, extraction of the index, and a
label-based reindex. -/

/-- The `unpooled_estimates` Series: county names zipped with the
column means of the `a` draws. -/
def unpooled_estimates_series (cd : CleanData) (a : List (List ℚ)) : List (String × ℚ) :=
  cd.mn_counties.zip (unpooled_estimates a)

/-- pandas `sort_values()`: the series rearranged into ascending order of
its values. -/
def sort_values (s : List (String × ℚ)) : List (String × ℚ) :=
  s.mergeSort (fun p q => decide (p.2 ≤ q.2))

/-- pandas `.index` of the sorted series: the labels in sorted-value order. -/
def orderIndex (s : List (String × ℚ)) : List String :=
  (sort_values s).map Prod.fst

/-- pandas label-based indexing `s[names]`: for each requested label, the
value of the first entry carrying it. -/
def reindex (s : List (String × ℚ)) (names : List String) : List ℚ :=
  names.map (fun n => ((s.find? (fun p => p.1 == n)).map Prod.snd).getD 0)

/-- Helper: in a series with pairwise-distinct labels, looking up the label
of a member returns exactly that member. -/
theorem find?_key_eq_of_nodup {s : List (String × ℚ)} (hnd : (s.map Prod.fst).Nodup)
    {p : String × ℚ} (hp : p ∈ s) : s.find? (fun q => q.1 == p.1) = some p := by
  induction s with
  | nil => cases hp
  | cons q t ih =>
    have hnd2 : (q.1 :: t.map Prod.fst).Nodup := by
      rw [List.map_cons] at hnd; exact hnd
    have hnc := List.nodup_cons.mp hnd2
    rcases List.mem_cons.mp hp with h | h
    · subst h
      exact List.find?_cons_of_pos _ (by simp)
    · have hne : q.1 ≠ p.1 := by
        intro he
        exact hnc.1 (he ▸ List.mem_map_of_mem Prod.fst h)
      rw [List.find?_cons_of_neg _ (by simp [hne])]
      exact ih hnc.2 h

/-- Helper: the sort comparison of `sort_values` is transitive. -/
theorem sortLe_trans (a b c : String × ℚ)
    (hab : decide (a.2 ≤ b.2) = true) (hbc : decide (b.2 ≤ c.2) = true) :
    decide (a.2 ≤ c.2) = true := by
  simp only [decide_eq_true_eq] at *
  exact le_trans hab hbc

/-- Helper: the sort comparison of `sort_values` is total. -/
theorem sortLe_total (a b : String × ℚ) :
    (decide (a.2 ≤ b.2) || decide (b.2 ≤ a.2)) = true := by
  simp only [Bool.or_eq_true, decide_eq_true_eq]
  exact le_total a.2 b.2

/-- C10: the reordering applied before plotting is a permutation of the
county names, and the reordered values `unpooled_estimates[order]` are
nondecreasing: counties are plotted from lowest to highest estimate without
losing or duplicating any county. -/
theorem order_is_sorted_permutation (cd : CleanData) (a : List (List ℚ))
    (ha : ∀ row ∈ a, row.length = 85)
    (hlen : cd.mn_counties.length = 85)
    (hnd : cd.mn_counties.Nodup) :
    (orderIndex (unpooled_estimates_series cd a)).Perm cd.mn_counties ∧
    List.Pairwise (fun v w : ℚ => v ≤ w)
      (reindex (unpooled_estimates_series cd a)
        (orderIndex (unpooled_estimates_series cd a))) := by
  have hvals : (unpooled_estimates a).length = 85 := length_mean0 85 a ha
  have hfst : (unpooled_estimates_series cd a).map Prod.fst = cd.mn_counties := by
    refine List.map_fst_zip _ _ ?_
    omega
  have hperm : (sort_values (unpooled_estimates_series cd a)).Perm
      (unpooled_estimates_series cd a) :=
    List.mergeSort_perm _ _
  constructor
  · have := (hperm.map Prod.fst)
    rw [hfst] at this
    exact this
  · have hndk : ((unpooled_estimates_series cd a).map Prod.fst).Nodup := by
      rw [hfst]; exact hnd
    have hsorted : (sort_values (unpooled_estimates_series cd a)).Pairwise
        (fun p q => decide (p.2 ≤ q.2) = true) :=
      List.sorted_mergeSort sortLe_trans sortLe_total _
    have hre : reindex (unpooled_estimates_series cd a)
        (orderIndex (unpooled_estimates_series cd a))
        = (sort_values (unpooled_estimates_series cd a)).map Prod.snd := by
      show ((sort_values (unpooled_estimates_series cd a)).map Prod.fst).map _ = _
      rw [List.map_map]
      refine List.map_congr_left ?_
      intro p hp
      have hps : p ∈ unpooled_estimates_series cd a := hperm.mem_iff.mp hp
      show (((unpooled_estimates_series cd a).find?
          (fun q => q.1 == p.1)).map Prod.snd).getD 0 = p.2
      rw [find?_key_eq_of_nodup hndk hps]
      rfl
    rw [hre]
    refine List.Pairwise.map Prod.snd ?_ hsorted
    intro p q hpq
    simpa using hpq

/-- C10 witness: concrete evaluation with 85 distinct single-character
county labels and one draw of 85 zero estimates. -/
theorem order_is_sorted_permutation_witness :
    ((∀ row ∈ [List.replicate 85 (0 : ℚ)], row.length = 85) ∧
     ((List.range 85).map (fun n => String.mk [Char.ofNat (65 + n)])).length = 85 ∧
     ((List.range 85).map (fun n => String.mk [Char.ofNat (65 + n)])).Nodup) ∧
    ((orderIndex (unpooled_estimates_series
        (CleanData.mk [] [] [] ((List.range 85).map (fun n => String.mk [Char.ofNat (65 + n)])))
        [List.replicate 85 (0 : ℚ)])).Perm
        ((List.range 85).map (fun n => String.mk [Char.ofNat (65 + n)])) ∧
     List.Pairwise (fun v w : ℚ => v ≤ w)
      (reindex (unpooled_estimates_series
          (CleanData.mk [] [] [] ((List.range 85).map (fun n => String.mk [Char.ofNat (65 + n)])))
          [List.replicate 85 (0 : ℚ)])
        (orderIndex (unpooled_estimates_series
          (CleanData.mk [] [] [] ((List.range 85).map (fun n => String.mk [Char.ofNat (65 + n)])))
          [List.replicate 85 (0 : ℚ)])))) :=
  ⟨⟨by decide, by decide, by decide⟩,
   order_is_sorted_permutation
     (CleanData.mk [] [] [] ((List.range 85).map (fun n => String.mk [Char.ofNat (65 + n)])))
     [List.replicate 85 (0 : ℚ)] (by decide) (by decide) (by decide)⟩

end StanNotebooks
